import Mathlib

/-
Verification of the `go-better-math` linear-algebra library.

The library is generic over a `Numeric` element type (signed/unsigned
integers and floating-point types).  The shallow embedding works with two
exact instantiations:

* `ℚ` stands for the exact-field reading of the floating-point
  instantiations (all arithmetic in the source is closed-form field
  arithmetic; floating-point rounding is not modelled);
* `ℤ` stands for the integer instantiations; Go's integer division
  truncates toward zero (`Int.tdiv`) and its division by zero is a
  run-time panic, modelled by `Option` (`none` = panic).

External double-precision primitives from Go's `math` package
(`math.Sqrt`, `math.Cos`, `math.Sin`, `math.Log`, ...) are transcendental
and are modelled as explicit function parameters (`sq`, `cosF`, `sinF`,
`lg`, ...); every property proved below holds for an arbitrary model of
those primitives unless the theorem states pointwise hypotheses on them.
-/

/-- The 2x2 singularity threshold `1e-10` from `mat2.go` as an exact
rational.  The Go source compares `Abs(float32(det)) < 1e-10`; the
conversion of the determinant to 32-bit precision is modelled as the
identity on `ℚ` (the rounding cannot move a magnitude across the
threshold except within half an ulp of the threshold itself). -/
def eps : ℚ := 1 / 10 ^ 10

/-- Model of `Abs(x) = T(math.Abs(float64(x)))` from the scalar toolkit,
exact over `ℚ`. -/
def goAbs (x : ℚ) : ℚ := |x|

/-- Model of the toolkit's `Sqrt`: `if x < 0 { return 0 }` then delegates
to the external primitive `math.Sqrt`, modelled by the parameter `sq`. -/
def goSqrt (sq : ℚ → ℚ) (x : ℚ) : ℚ := if x < 0 then 0 else sq x

/-- Model of the toolkit's `Log`: `if x <= 0 { return 0 }` then delegates
to `math.Log`, modelled by the parameter `lg`. -/
def goLog (lg : ℚ → ℚ) (x : ℚ) : ℚ := if x ≤ 0 then 0 else lg x

/-- Model of the toolkit's `Log2`, guard as in `Log`. -/
def goLog2 (lg2 : ℚ → ℚ) (x : ℚ) : ℚ := if x ≤ 0 then 0 else lg2 x

/-- Model of the toolkit's `Log10`, guard as in `Log`. -/
def goLog10 (lg10 : ℚ → ℚ) (x : ℚ) : ℚ := if x ≤ 0 then 0 else lg10 x

/-- Go's built-in `/` on a signed integer type: truncation toward zero,
and a run-time panic (modelled as `none`) when the divisor is zero. -/
def goIntDiv (a b : ℤ) : Option ℤ := if b = 0 then none else some (a.tdiv b)

/-- `Mat2[T]` is a row-major `[2][2]T` array, indexed `[row][col]`. -/
abbrev Mat2 (α : Type) := Matrix (Fin 2) (Fin 2) α

/-- `Mat3[T]` is a row-major `[3][3]T` array. -/
abbrev Mat3 (α : Type) := Matrix (Fin 3) (Fin 3) α

/-- `Mat4[T]` is a row-major `[4][4]T` array. -/
abbrev Mat4 (α : Type) := Matrix (Fin 4) (Fin 4) α

/-- `IdentityMat2` from `mat2.go`. -/
def IdentityMat2 : Mat2 ℚ := !![1, 0; 0, 1]

/-- `IdentityMat3` from `mat3.go`. -/
def IdentityMat3 : Mat3 ℚ := !![1, 0, 0; 0, 1, 0; 0, 0, 1]

/-- `IdentityMat4` from `mat4.go`. -/
def IdentityMat4 : Mat4 ℚ := !![1, 0, 0, 0; 0, 1, 0, 0; 0, 0, 1, 0; 0, 0, 0, 1]

/-- `Mat2.Mul` from `mat2.go`, the explicit four-entry product formula. -/
def Mat2.Mul (m n : Mat2 ℚ) : Mat2 ℚ :=
  !![m 0 0 * n 0 0 + m 0 1 * n 1 0, m 0 0 * n 0 1 + m 0 1 * n 1 1;
     m 1 0 * n 0 0 + m 1 1 * n 1 0, m 1 0 * n 0 1 + m 1 1 * n 1 1]

/-- `Mat2.Div` from `mat2.go`: element-wise division (field case). -/
def Mat2.Div (m n : Mat2 ℚ) : Mat2 ℚ :=
  !![m 0 0 / n 0 0, m 0 1 / n 0 1; m 1 0 / n 1 0, m 1 1 / n 1 1]

/-- `Mat2.Div` at an integer element type: Go `/` on integers panics on a
zero divisor, so the result is an `Option`. -/
def Mat2.DivInt (m n : Mat2 ℤ) : Option (Mat2 ℤ) :=
  match goIntDiv (m 0 0) (n 0 0), goIntDiv (m 0 1) (n 0 1),
        goIntDiv (m 1 0) (n 1 0), goIntDiv (m 1 1) (n 1 1) with
  | some a, some b, some c, some d => some !![a, b; c, d]
  | _, _, _, _ => none

/-- `Mat2.Determinant` from `mat2.go`: `m00*m11 - m01*m10`. -/
def Mat2.Determinant {α : Type} [CommRing α] (m : Mat2 α) : α :=
  m 0 0 * m 1 1 - m 0 1 * m 1 0

/-- `Mat2.Inverse` from `mat2.go` over `ℚ`.  The singularity test in the
source is `Abs(float32(det)) < 1e-10`; see `eps` for how the 32-bit cast
is modelled.  On failure Go returns the zero value `Mat2[T]{}`. -/
def Mat2.Inverse (m : Mat2 ℚ) : Mat2 ℚ × Bool :=
  let det := Mat2.Determinant m
  if goAbs det < eps then (0, false)
  else
    let invDet := 1 / det
    (!![m 1 1 * invDet, -m 0 1 * invDet; -m 1 0 * invDet, m 0 0 * invDet], true)

/-- `Mat2.Inverse` at an integer element type.  For an integer `det` the
source test `Abs(float32(det)) < 1e-10` holds exactly when `det = 0`
(every nonzero integer has 32-bit floating magnitude at least 1), and
`invDet := 1 / det` is Go's truncating integer division. -/
def Mat2.InverseInt (m : Mat2 ℤ) : Mat2 ℤ × Bool :=
  let det := Mat2.Determinant m
  if det = 0 then (0, false)
  else
    let invDet := Int.tdiv 1 det
    (!![m 1 1 * invDet, -m 0 1 * invDet; -m 1 0 * invDet, m 0 0 * invDet], true)

/-- `Mat2.Rotate` from `mat2.go`: the receiver `m` appears nowhere in the
body; `cosF`/`sinF` model the toolkit's `Cos`/`Sin`. -/
def Mat2.Rotate (cosF sinF : ℚ → ℚ) (_m : Mat2 ℚ) (angle : ℚ) : Mat2 ℚ :=
  let cosA := cosF angle
  let sinA := sinF angle
  !![cosA, -sinA; sinA, cosA]

/-- `Mat3.Determinant` from `mat3.go`: the explicit 3-term cofactor
expansion along the first row. -/
def Mat3.Determinant {α : Type} [CommRing α] (m : Mat3 α) : α :=
  m 0 0 * (m 1 1 * m 2 2 - m 1 2 * m 2 1) -
    m 0 1 * (m 1 0 * m 2 2 - m 1 2 * m 2 0) +
    m 0 2 * (m 1 0 * m 2 1 - m 1 1 * m 2 0)

/-- `Mat3.Mul` from `mat3.go`, the explicit nine-entry product formula. -/
def Mat3.Mul (m n : Mat3 ℚ) : Mat3 ℚ :=
  !![m 0 0 * n 0 0 + m 0 1 * n 1 0 + m 0 2 * n 2 0,
     m 0 0 * n 0 1 + m 0 1 * n 1 1 + m 0 2 * n 2 1,
     m 0 0 * n 0 2 + m 0 1 * n 1 2 + m 0 2 * n 2 2;
     m 1 0 * n 0 0 + m 1 1 * n 1 0 + m 1 2 * n 2 0,
     m 1 0 * n 0 1 + m 1 1 * n 1 1 + m 1 2 * n 2 1,
     m 1 0 * n 0 2 + m 1 1 * n 1 2 + m 1 2 * n 2 2;
     m 2 0 * n 0 0 + m 2 1 * n 1 0 + m 2 2 * n 2 0,
     m 2 0 * n 0 1 + m 2 1 * n 1 1 + m 2 2 * n 2 1,
     m 2 0 * n 0 2 + m 2 1 * n 1 2 + m 2 2 * n 2 2]

/-- `Mat3.Inverse` from `mat3.go`: test `det == 0`, then the closed-form
adjugate-over-determinant with the nine explicit cofactor entries. -/
def Mat3.Inverse (m : Mat3 ℚ) : Mat3 ℚ × Bool :=
  let det := Mat3.Determinant m
  if det = 0 then (0, false)
  else
    let invDet := 1 / det
    (!![(m 1 1 * m 2 2 - m 1 2 * m 2 1) * invDet,
        (m 0 2 * m 2 1 - m 0 1 * m 2 2) * invDet,
        (m 0 1 * m 1 2 - m 0 2 * m 1 1) * invDet;
        (m 1 2 * m 2 0 - m 1 0 * m 2 2) * invDet,
        (m 0 0 * m 2 2 - m 0 2 * m 2 0) * invDet,
        (m 0 2 * m 1 0 - m 0 0 * m 1 2) * invDet;
        (m 1 0 * m 2 1 - m 1 1 * m 2 0) * invDet,
        (m 0 1 * m 2 0 - m 0 0 * m 2 1) * invDet,
        (m 0 0 * m 1 1 - m 0 1 * m 1 0) * invDet], true)

/-- Free function `RotateX` from `mat3.go`. -/
def RotateX (cosF sinF : ℚ → ℚ) (angle : ℚ) : Mat3 ℚ :=
  let cosA := cosF angle
  let sinA := sinF angle
  !![1, 0, 0; 0, cosA, -sinA; 0, sinA, cosA]

/-- Free function `RotateY` from `mat3.go`. -/
def RotateY (cosF sinF : ℚ → ℚ) (angle : ℚ) : Mat3 ℚ :=
  let cosA := cosF angle
  let sinA := sinF angle
  !![cosA, 0, sinA; 0, 1, 0; -sinA, 0, cosA]

/-- Free function `RotateZ` from `mat3.go`. -/
def RotateZ (cosF sinF : ℚ → ℚ) (angle : ℚ) : Mat3 ℚ :=
  let cosA := cosF angle
  let sinA := sinF angle
  !![cosA, -sinA, 0; sinA, cosA, 0; 0, 0, 1]

/-- Method `Mat3.RotateX` from `mat3.go`: the receiver is unused. -/
def Mat3.RotateX (cosF sinF : ℚ → ℚ) (_m : Mat3 ℚ) (angle : ℚ) : Mat3 ℚ :=
  let cosA := cosF angle
  let sinA := sinF angle
  !![1, 0, 0; 0, cosA, -sinA; 0, sinA, cosA]

/-- Method `Mat3.RotateY` from `mat3.go`: the receiver is unused. -/
def Mat3.RotateY (cosF sinF : ℚ → ℚ) (_m : Mat3 ℚ) (angle : ℚ) : Mat3 ℚ :=
  let cosA := cosF angle
  let sinA := sinF angle
  !![cosA, 0, sinA; 0, 1, 0; -sinA, 0, cosA]

/-- Method `Mat3.RotateZ` from `mat3.go`: the receiver is unused. -/
def Mat3.RotateZ (cosF sinF : ℚ → ℚ) (_m : Mat3 ℚ) (angle : ℚ) : Mat3 ℚ :=
  let cosA := cosF angle
  let sinA := sinF angle
  !![cosA, -sinA, 0; sinA, cosA, 0; 0, 0, 1]

/-- `Mat4.Mul` from `mat4.go`: `result[i][j] = Σ_k m[i][k] * n[k][j]`. -/
def Mat4.Mul (m n : Mat4 ℚ) : Mat4 ℚ :=
  Matrix.of fun i j => ∑ k : Fin 4, m i k * n k j

/-- `Mat4.ScalarMul` from `mat4.go`. -/
def Mat4.ScalarMul (m : Mat4 ℚ) (scalar : ℚ) : Mat4 ℚ :=
  Matrix.of fun i j => m i j * scalar

/-- Index arithmetic of the loop in `Mat4.Minor`: copying a 4-vector while
skipping position `d` sends source index `i` of the 3-vector to `i` when
`i < d` and to `i + 1` otherwise. -/
def skipIdx (d : Fin 4) (i : Fin 3) : Fin 4 :=
  if (i : ℕ) < (d : ℕ) then i.castSucc else i.succ

/-- `Mat4.Minor` from `mat4.go`: delete row `row` and column `col`, then
take the 3x3 determinant. -/
def Mat4.Minor {α : Type} [CommRing α] (m : Mat4 α) (row col : Fin 4) : α :=
  Mat3.Determinant (Matrix.of fun r c => m (skipIdx row r) (skipIdx col c))

/-- `Mat4.Cofactor` from `mat4.go`: the minor, negated when `row + col`
is odd. -/
def Mat4.Cofactor {α : Type} [CommRing α] (m : Mat4 α) (row col : Fin 4) : α :=
  let minor := Mat4.Minor m row col
  if ((row : ℕ) + (col : ℕ)) % 2 = 0 then minor else -minor

/-- `Mat4.Determinant` from `mat4.go`: cofactor expansion along row 0. -/
def Mat4.Determinant {α : Type} [CommRing α] (m : Mat4 α) : α :=
  ∑ i : Fin 4, m 0 i * Mat4.Cofactor m 0 i

/-- `Mat4.Inverse` from `mat4.go`: test `det == 0`, build the adjugate
with `adjoint[j][i] = Cofactor(i, j)`, scale by `1 / det`. -/
def Mat4.Inverse (m : Mat4 ℚ) : Mat4 ℚ × Bool :=
  let det := Mat4.Determinant m
  if det = 0 then (0, false)
  else
    let adjoint : Mat4 ℚ := Matrix.of fun j i => Mat4.Cofactor m i j
    let invDet := 1 / det
    (Mat4.ScalarMul adjoint invDet, true)

/-- Method `Mat4.RotateX` from `mat4.go`: the receiver is unused. -/
def Mat4.RotateX (cosF sinF : ℚ → ℚ) (_m : Mat4 ℚ) (angle : ℚ) : Mat4 ℚ :=
  let cosA := cosF angle
  let sinA := sinF angle
  !![1, 0, 0, 0; 0, cosA, -sinA, 0; 0, sinA, cosA, 0; 0, 0, 0, 1]

/-- Method `Mat4.RotateY` from `mat4.go`: the receiver is unused. -/
def Mat4.RotateY (cosF sinF : ℚ → ℚ) (_m : Mat4 ℚ) (angle : ℚ) : Mat4 ℚ :=
  let cosA := cosF angle
  let sinA := sinF angle
  !![cosA, 0, sinA, 0; 0, 1, 0, 0; -sinA, 0, cosA, 0; 0, 0, 0, 1]

/-- Method `Mat4.RotateZ` from `mat4.go`: the receiver is unused. -/
def Mat4.RotateZ (cosF sinF : ℚ → ℚ) (_m : Mat4 ℚ) (angle : ℚ) : Mat4 ℚ :=
  let cosA := cosF angle
  let sinA := sinF angle
  !![cosA, -sinA, 0, 0; sinA, cosA, 0, 0; 0, 0, 1, 0; 0, 0, 0, 1]

/-- `Vec2[T]` from `vec2.go`: named components `X, Y`. -/
structure Vec2 (α : Type) where
  X : α
  Y : α
deriving DecidableEq

/-- `Vec3[T]` from `vec3.go`: named components `X, Y, Z`. -/
structure Vec3 (α : Type) where
  X : α
  Y : α
  Z : α
deriving DecidableEq

/-- `Vec4[T]` from `vec4.go`: named components `X, Y, Z, W`. -/
structure Vec4 (α : Type) where
  X : α
  Y : α
  Z : α
  W : α
deriving DecidableEq

/-- `Vec2.Div` from `vec2.go`: component-wise division (field case). -/
def Vec2.Div (v other : Vec2 ℚ) : Vec2 ℚ := ⟨v.X / other.X, v.Y / other.Y⟩

/-- `Vec3.Div` from `vec3.go`: component-wise division (field case). -/
def Vec3.Div (v other : Vec3 ℚ) : Vec3 ℚ :=
  ⟨v.X / other.X, v.Y / other.Y, v.Z / other.Z⟩

/-- `Vec4.Div` from `vec4.go`: component-wise division (field case). -/
def Vec4.Div (v other : Vec4 ℚ) : Vec4 ℚ :=
  ⟨v.X / other.X, v.Y / other.Y, v.Z / other.Z, v.W / other.W⟩

/-- `Vec2.Div` at an integer element type: Go `/` on integers panics on a
zero divisor, so the result is an `Option`. -/
def Vec2.DivInt (v other : Vec2 ℤ) : Option (Vec2 ℤ) :=
  match goIntDiv v.X other.X, goIntDiv v.Y other.Y with
  | some a, some b => some ⟨a, b⟩
  | _, _ => none

/-- `Vec3.DivInt`: `Vec3.Div` at an integer element type. -/
def Vec3.DivInt (v other : Vec3 ℤ) : Option (Vec3 ℤ) :=
  match goIntDiv v.X other.X, goIntDiv v.Y other.Y, goIntDiv v.Z other.Z with
  | some a, some b, some c => some ⟨a, b, c⟩
  | _, _, _ => none

/-- `Vec4.DivInt`: `Vec4.Div` at an integer element type. -/
def Vec4.DivInt (v other : Vec4 ℤ) : Option (Vec4 ℤ) :=
  match goIntDiv v.X other.X, goIntDiv v.Y other.Y,
        goIntDiv v.Z other.Z, goIntDiv v.W other.W with
  | some a, some b, some c, some d => some ⟨a, b, c, d⟩
  | _, _, _, _ => none

/-- `Vec2.Mag` from `vec2.go`: `Sqrt(x*x + y*y)`; `sq` models `math.Sqrt`. -/
def Vec2.Mag (sq : ℚ → ℚ) (v : Vec2 ℚ) : ℚ :=
  goSqrt sq (v.X * v.X + v.Y * v.Y)

/-- `Vec3.Mag` from `vec3.go`. -/
def Vec3.Mag (sq : ℚ → ℚ) (v : Vec3 ℚ) : ℚ :=
  goSqrt sq (v.X * v.X + v.Y * v.Y + v.Z * v.Z)

/-- `Vec4.Mag` from `vec4.go`. -/
def Vec4.Mag (sq : ℚ → ℚ) (v : Vec4 ℚ) : ℚ :=
  goSqrt sq (v.X * v.X + v.Y * v.Y + v.Z * v.Z + v.W * v.W)

/-- `Vec2.Norm` from `vec2.go`: the zero vector when `mag == 0`, else the
component-wise quotient by `mag`. -/
def Vec2.Norm (sq : ℚ → ℚ) (v : Vec2 ℚ) : Vec2 ℚ :=
  let mag := Vec2.Mag sq v
  if mag = 0 then ⟨0, 0⟩ else ⟨v.X / mag, v.Y / mag⟩

/-- `Vec3.Norm` from `vec3.go`. -/
def Vec3.Norm (sq : ℚ → ℚ) (v : Vec3 ℚ) : Vec3 ℚ :=
  let mag := Vec3.Mag sq v
  if mag = 0 then ⟨0, 0, 0⟩ else ⟨v.X / mag, v.Y / mag, v.Z / mag⟩

/-- `Vec4.Norm` from `vec4.go`. -/
def Vec4.Norm (sq : ℚ → ℚ) (v : Vec4 ℚ) : Vec4 ℚ :=
  let mag := Vec4.Mag sq v
  if mag = 0 then ⟨0, 0, 0, 0⟩ else ⟨v.X / mag, v.Y / mag, v.Z / mag, v.W / mag⟩

/-- The index loop of `CubicSpline`: starting from `i = 0`, increment
while `i < n-1 && x[i+1] < xVal`.  Structurally: while at least two knots
remain and the next knot is strictly below `xVal`, shift right. -/
def splineSearch : List ℚ → ℚ → ℕ
  | _ :: x1 :: rest, xVal => if x1 < xVal then 1 + splineSearch (x1 :: rest) xVal else 0
  | _, _ => 0

/-- `CubicSpline` from the scalar toolkit: length validation, range
validation (each returning the sentinel 0), the linear interval scan, and
the cubic evaluation `a[i] + b[i]*h + c[i]*h*h + d[i]*h*h*h` with
`h = xVal - x[i]`.  The diagnostic log emissions have no modelled effect. -/
def CubicSpline (x a b c d : List ℚ) (xVal : ℚ) : ℚ :=
  if x.length ≠ a.length ∨ x.length ≠ b.length ∨ x.length ≠ c.length ∨
      x.length ≠ d.length ∨ x.length < 2 then 0
  else if xVal < x.getD 0 0 ∨ xVal > x.getD (x.length - 1) 0 then 0
  else
    let i := splineSearch x xVal
    let h := xVal - x.getD i 0
    a.getD i 0 + b.getD i 0 * h + c.getD i 0 * (h * h) + d.getD i 0 * (h * h * h)

/-- The matrix obtained from `m` by exchanging rows `i` and `j` (used to
state the alternating-determinant property). -/
def swapRows {n : ℕ} {α : Type} (i j : Fin n) (m : Matrix (Fin n) (Fin n) α) :
    Matrix (Fin n) (Fin n) α :=
  Matrix.of fun r c => m (Equiv.swap i j r) c

/-- Modelled from the spec (claim C5's wording, for comparison with the
source): the rightmost interval index `i` with `xs[i] ≤ xVal`, found by a
left-to-right scan over the interval indices `0 .. n-2`. -/
def specRightmostIdx (x : List ℚ) (xVal : ℚ) : ℕ :=
  (List.range (x.length - 1)).foldl (fun acc i => if x.getD i 0 ≤ xVal then i else acc) 0

/-- Modelled from the spec (claim C5's wording): evaluate the cubic on the
interval selected by `specRightmostIdx`. -/
def specCubicSpline (x a b c d : List ℚ) (xVal : ℚ) : ℚ :=
  let i := specRightmostIdx x xVal
  let h := xVal - x.getD i 0
  a.getD i 0 + b.getD i 0 * h + c.getD i 0 * (h * h) + d.getD i 0 * (h * h * h)

/-- A concrete model of `math.Sqrt`, exact on the inputs that the
normalization witness evaluates it at. -/
def sqW (y : ℚ) : ℚ := if y = 25 then 5 else if y = 1 then 1 else 0

lemma fin3_castSucc_zero : Fin.castSucc (0 : Fin 3) = (0 : Fin 4) := by decide

lemma fin3_castSucc_one : Fin.castSucc (1 : Fin 3) = (1 : Fin 4) := by decide

lemma fin3_castSucc_two : Fin.castSucc (2 : Fin 3) = (2 : Fin 4) := by decide

lemma fin3_succ_zero : Fin.succ (0 : Fin 3) = (1 : Fin 4) := by decide

lemma fin3_succ_one : Fin.succ (1 : Fin 3) = (2 : Fin 4) := by decide

lemma fin3_succ_two : Fin.succ (2 : Fin 3) = (3 : Fin 4) := by decide

/-- The loop of `Mat4.Minor` skips exactly like `Fin.succAbove`. -/
lemma skipIdx_eq_succAbove (d : Fin 4) (i : Fin 3) : skipIdx d i = d.succAbove i := by
  simp [skipIdx, Fin.succAbove, Fin.lt_def]

/-- The source's 2x2 determinant formula is the mathematical determinant. -/
lemma det2_eq_det {α : Type} [CommRing α] (m : Mat2 α) : Mat2.Determinant m = m.det := by
  rw [Matrix.det_fin_two, Mat2.Determinant]

/-- The source's 3x3 determinant formula is the mathematical determinant. -/
lemma det3_eq_det {α : Type} [CommRing α] (m : Mat3 α) : Mat3.Determinant m = m.det := by
  rw [Matrix.det_fin_three, Mat3.Determinant]; ring

/-- The source's 4x4 cofactor expansion is the mathematical determinant. -/
lemma det4_eq_det {α : Type} [CommRing α] (m : Mat4 α) : Mat4.Determinant m = m.det := by
  rw [Matrix.det_succ_row_zero]
  simp +decide [Mat4.Determinant, Mat4.Cofactor, Mat4.Minor, Mat3.Determinant, skipIdx,
    Fin.sum_univ_four, Matrix.det_fin_three, Fin.sum_univ_succ, Fin.succAbove,
    fin3_castSucc_zero, fin3_castSucc_one, fin3_castSucc_two,
    fin3_succ_zero, fin3_succ_one, fin3_succ_two]
  ring

/-- `Mat4.Minor` deletes the named row and column. -/
lemma minor4_eq_det_submatrix {α : Type} [CommRing α] (m : Mat4 α) (row col : Fin 4) :
    Mat4.Minor m row col = (m.submatrix row.succAbove col.succAbove).det := by
  rw [Mat4.Minor, det3_eq_det]
  have hsub : (Matrix.of fun r c => m (skipIdx row r) (skipIdx col c)) =
      m.submatrix row.succAbove col.succAbove := by
    ext r c
    simp [Matrix.submatrix_apply, skipIdx_eq_succAbove]
  rw [hsub]

/-- The checkerboard sign as a power of `-1`. -/
lemma checkerboard_sign {α : Type} [CommRing α] (k : ℕ) (x : α) :
    (if k % 2 = 0 then x else -x) = (-1) ^ k * x := by
  by_cases h : k % 2 = 0
  · have he : Even k := Nat.even_iff.mpr h
    rw [if_pos h, he.neg_one_pow, one_mul]
  · have ho : Odd k := Nat.odd_iff.mpr (by omega)
    rw [if_neg h, ho.neg_one_pow, neg_one_mul]

/-- C2: `Mat4.Determinant` is the cofactor expansion along row 0, where
`Cofactor(row, col)` is the minor with the checkerboard sign and
`Minor(row, col)` is the determinant of the 3x3 sub-matrix with the named
row and column deleted; the composite equals the mathematical 4x4
determinant (Mathlib's `Matrix.det`, the Leibniz sum). -/
theorem mat4_determinant_cofactor_expansion (m : Mat4 ℚ) :
    Mat4.Determinant m = ∑ i : Fin 4, m 0 i * Mat4.Cofactor m 0 i ∧
    (∀ row col, Mat4.Cofactor m row col =
      if ((row : ℕ) + (col : ℕ)) % 2 = 0 then Mat4.Minor m row col
      else -Mat4.Minor m row col) ∧
    (∀ row col,
      Mat4.Minor m row col = (m.submatrix row.succAbove col.succAbove).det) ∧
    Mat4.Determinant m = m.det := by
  exact ⟨rfl, fun _ _ => rfl, minor4_eq_det_submatrix m, det4_eq_det m⟩

/-- C7: for every supported size, exchanging two distinct rows negates
the determinant computed by the source formulas. -/
theorem determinant_alternating :
    (∀ (m : Mat2 ℚ) (i j : Fin 2), i ≠ j →
      Mat2.Determinant (swapRows i j m) = -Mat2.Determinant m) ∧
    (∀ (m : Mat3 ℚ) (i j : Fin 3), i ≠ j →
      Mat3.Determinant (swapRows i j m) = -Mat3.Determinant m) ∧
    (∀ (m : Mat4 ℚ) (i j : Fin 4), i ≠ j →
      Mat4.Determinant (swapRows i j m) = -Mat4.Determinant m) := by
  refine ⟨fun m i j hij => ?_, fun m i j hij => ?_, fun m i j hij => ?_⟩ <;>
    [rw [det2_eq_det, det2_eq_det]; rw [det3_eq_det, det3_eq_det];
     rw [det4_eq_det, det4_eq_det]] <;>
    · show ((m.submatrix (Equiv.swap i j) id).det) = -m.det
      rw [Matrix.det_permute, Equiv.Perm.sign_swap hij]
      simp

/-- C7 witness: a concrete row exchange on each size. -/
theorem determinant_alternating_witness :
    Mat2.Determinant (swapRows 0 1 (!![1, 2; 3, 4] : Mat2 ℚ)) =
      -Mat2.Determinant (!![1, 2; 3, 4] : Mat2 ℚ) ∧
    Mat3.Determinant (swapRows 1 2 (!![1, 2, 3; 4, 5, 6; 7, 8, 10] : Mat3 ℚ)) =
      -Mat3.Determinant (!![1, 2, 3; 4, 5, 6; 7, 8, 10] : Mat3 ℚ) ∧
    Mat4.Determinant (swapRows 0 3 IdentityMat4) = -Mat4.Determinant IdentityMat4 :=
  ⟨determinant_alternating.1 _ 0 1 (by decide),
   determinant_alternating.2.1 _ 1 2 (by decide),
   determinant_alternating.2.2 _ 0 3 (by decide)⟩

/-- C3: the singularity test of `Inverse` differs by size: the 2x2 case
fails exactly when the determinant's absolute value is below `1e-10`
(32-bit rounding of the determinant modelled as exact), while the 3x3 and
4x4 cases fail exactly when the determinant is exactly zero. -/
theorem inverse_singularity_test :
    (∀ m : Mat2 ℚ, (Mat2.Inverse m).2 = false ↔ goAbs (Mat2.Determinant m) < eps) ∧
    (∀ m : Mat3 ℚ, (Mat3.Inverse m).2 = false ↔ Mat3.Determinant m = 0) ∧
    (∀ m : Mat4 ℚ, (Mat4.Inverse m).2 = false ↔ Mat4.Determinant m = 0) := by
  refine ⟨fun m => ?_, fun m => ?_, fun m => ?_⟩
  · by_cases h : goAbs (Mat2.Determinant m) < eps <;> simp [Mat2.Inverse, h]
  · by_cases h : Mat3.Determinant m = 0 <;> simp [Mat3.Inverse, h]
  · by_cases h : Mat4.Determinant m = 0 <;> simp [Mat4.Inverse, h]

/-- C4: every instance rotation method ignores its receiver: two distinct
receivers produce identical results, the `Mat3` methods agree with the
matrix-producing free functions, and each result is the standard axis
rotation matrix built only from `Cos(angle)` and `Sin(angle)`. -/
theorem rotate_ignores_receiver (cosF sinF : ℚ → ℚ) (angle : ℚ) :
    (∀ m1 m2 : Mat2 ℚ, Mat2.Rotate cosF sinF m1 angle = Mat2.Rotate cosF sinF m2 angle) ∧
    (∀ m1 m2 : Mat3 ℚ,
      Mat3.RotateX cosF sinF m1 angle = Mat3.RotateX cosF sinF m2 angle ∧
      Mat3.RotateY cosF sinF m1 angle = Mat3.RotateY cosF sinF m2 angle ∧
      Mat3.RotateZ cosF sinF m1 angle = Mat3.RotateZ cosF sinF m2 angle) ∧
    (∀ m1 m2 : Mat4 ℚ,
      Mat4.RotateX cosF sinF m1 angle = Mat4.RotateX cosF sinF m2 angle ∧
      Mat4.RotateY cosF sinF m1 angle = Mat4.RotateY cosF sinF m2 angle ∧
      Mat4.RotateZ cosF sinF m1 angle = Mat4.RotateZ cosF sinF m2 angle) ∧
    (∀ m : Mat3 ℚ,
      Mat3.RotateX cosF sinF m angle = RotateX cosF sinF angle ∧
      Mat3.RotateY cosF sinF m angle = RotateY cosF sinF angle ∧
      Mat3.RotateZ cosF sinF m angle = RotateZ cosF sinF angle) ∧
    (∀ m : Mat2 ℚ,
      Mat2.Rotate cosF sinF m angle =
        !![cosF angle, -sinF angle; sinF angle, cosF angle]) ∧
    (∀ m : Mat4 ℚ,
      Mat4.RotateX cosF sinF m angle =
        !![1, 0, 0, 0; 0, cosF angle, -sinF angle, 0;
           0, sinF angle, cosF angle, 0; 0, 0, 0, 1]) :=
  ⟨fun _ _ => rfl,
   fun _ _ => ⟨rfl, rfl, rfl⟩,
   fun _ _ => ⟨rfl, rfl, rfl⟩,
   fun _ => ⟨rfl, rfl, rfl⟩,
   fun _ => rfl,
   fun _ => rfl⟩

/-- C8: the root/log family silently defaults domain violations to zero:
`Sqrt` returns 0 on every negative input and `Log`, `Log2`, `Log10`
return 0 on every non-positive input, whatever the external primitive
does elsewhere. -/
theorem sqrt_log_domain_default (f : ℚ → ℚ) (x : ℚ) :
    (x < 0 → goSqrt f x = 0) ∧
    (x ≤ 0 → goLog f x = 0) ∧
    (x ≤ 0 → goLog2 f x = 0) ∧
    (x ≤ 0 → goLog10 f x = 0) := by
  refine ⟨fun h => ?_, fun h => ?_, fun h => ?_, fun h => ?_⟩ <;>
    simp [goSqrt, goLog, goLog2, goLog10, h]

/-- C8 witness: the guards at `x = -1`. -/
theorem sqrt_log_domain_default_witness :
    goSqrt id (-1) = 0 ∧ goLog id (-1) = 0 ∧ goLog2 id (-1) = 0 ∧ goLog10 id (-1) = 0 :=
  ⟨(sqrt_log_domain_default id (-1)).1 (by norm_num),
   (sqrt_log_domain_default id (-1)).2.1 (by norm_num),
   (sqrt_log_domain_default id (-1)).2.2.1 (by norm_num),
   (sqrt_log_domain_default id (-1)).2.2.2 (by norm_num)⟩

lemma identity2_eq_one : IdentityMat2 = (1 : Mat2 ℚ) := Matrix.one_fin_two.symm

lemma identity3_eq_one : IdentityMat3 = (1 : Mat3 ℚ) := Matrix.one_fin_three.symm

lemma identity4_eq_one : IdentityMat4 = (1 : Mat4 ℚ) := by
  ext i j
  fin_cases i <;> fin_cases j <;>
    simp [IdentityMat4, Matrix.one_apply, Matrix.vecHead, Matrix.vecTail]

lemma mat2Mul_eq (m n : Mat2 ℚ) : Mat2.Mul m n = m * n := by
  ext i j
  fin_cases i <;> fin_cases j <;>
    simp [Mat2.Mul, Matrix.mul_apply, Fin.sum_univ_two, Matrix.vecHead, Matrix.vecTail]

lemma mat3Mul_eq (m n : Mat3 ℚ) : Mat3.Mul m n = m * n := by
  ext i j
  fin_cases i <;> fin_cases j <;>
    simp [Mat3.Mul, Matrix.mul_apply, Fin.sum_univ_three, Matrix.vecHead, Matrix.vecTail]

lemma mat4Mul_eq (m n : Mat4 ℚ) : Mat4.Mul m n = m * n := by
  ext i j
  simp [Mat4.Mul, Matrix.mul_apply]

lemma cofactor4_eq (m : Mat4 ℚ) (row col : Fin 4) :
    Mat4.Cofactor m row col =
      (-1) ^ ((row : ℕ) + (col : ℕ)) * (m.submatrix row.succAbove col.succAbove).det := by
  simp only [Mat4.Cofactor]
  rw [checkerboard_sign, minor4_eq_det_submatrix]

lemma adjoint4_eq_adjugate (m : Mat4 ℚ) :
    (Matrix.of fun j i => Mat4.Cofactor m i j) = m.adjugate := by
  ext j i
  rw [Matrix.of_apply, cofactor4_eq, Matrix.adjugate_fin_succ_eq_det_submatrix]

lemma scalarMul4_eq_smul (m : Mat4 ℚ) (s : ℚ) : Mat4.ScalarMul m s = s • m := by
  ext i j
  simp [Mat4.ScalarMul, mul_comm]

/-- C1 counterexample: the 2x2 matrix with determinant `1e-11` is
invertible (nonzero determinant) yet `Mat2.Inverse` returns the zero
matrix and `false`, so "for every invertible matrix ... returns true"
fails at this input. -/
theorem mat2_inverse_tiny_det_counterexample :
    Mat2.Determinant (!![1e-11, 0; 0, 1] : Mat2 ℚ) ≠ 0 ∧
    Mat2.Inverse (!![1e-11, 0; 0, 1] : Mat2 ℚ) = (0, false) := by
  have hdetval : Mat2.Determinant (!![1e-11, 0; 0, 1] : Mat2 ℚ) = 1e-11 := by
    norm_num [Mat2.Determinant]
  constructor
  · rw [hdetval]; norm_num
  · have h : goAbs (Mat2.Determinant (!![1e-11, 0; 0, 1] : Mat2 ℚ)) < eps := by
      rw [hdetval, goAbs, abs_of_pos (by norm_num)]
      norm_num [eps]
    simp [Mat2.Inverse, h]

/-- C1 (amended): over exact field arithmetic, `Mat3.Inverse` and
`Mat4.Inverse` return success and an exact right inverse precisely on
nonzero determinant, and `(zero, false)` on zero determinant; but
`Mat2.Inverse` succeeds only when the determinant's magnitude is at least
`1e-10` (then its result is an exact right inverse) and reports failure
with the zero matrix whenever the magnitude is below `1e-10`, including
on invertible matrices with tiny nonzero determinant. -/
theorem inverse_correct_amended :
    (∀ m : Mat2 ℚ, ¬goAbs (Mat2.Determinant m) < eps →
      (Mat2.Inverse m).2 = true ∧ Mat2.Mul m (Mat2.Inverse m).1 = IdentityMat2) ∧
    (∀ m : Mat2 ℚ, goAbs (Mat2.Determinant m) < eps → Mat2.Inverse m = (0, false)) ∧
    (∀ m : Mat3 ℚ, Mat3.Determinant m ≠ 0 →
      (Mat3.Inverse m).2 = true ∧ Mat3.Mul m (Mat3.Inverse m).1 = IdentityMat3) ∧
    (∀ m : Mat3 ℚ, Mat3.Determinant m = 0 → Mat3.Inverse m = (0, false)) ∧
    (∀ m : Mat4 ℚ, Mat4.Determinant m ≠ 0 →
      (Mat4.Inverse m).2 = true ∧ Mat4.Mul m (Mat4.Inverse m).1 = IdentityMat4) ∧
    (∀ m : Mat4 ℚ, Mat4.Determinant m = 0 → Mat4.Inverse m = (0, false)) := by
  refine ⟨fun m hm => ⟨?_, ?_⟩, fun m hm => ?_, fun m hm => ⟨?_, ?_⟩,
    fun m hm => ?_, fun m hm => ⟨?_, ?_⟩, fun m hm => ?_⟩
  · simp [Mat2.Inverse, hm]
  · have hdet : Mat2.Determinant m ≠ 0 := by
      intro h0
      exact hm (by rw [h0]; norm_num [goAbs, eps])
    have h1 : (Mat2.Inverse m).1 = (1 / Mat2.Determinant m) • m.adjugate := by
      simp only [Mat2.Inverse, if_neg hm]
      rw [Matrix.adjugate_fin_two]
      ext i j
      fin_cases i <;> fin_cases j <;>
        simp [Matrix.vecHead, Matrix.vecTail, mul_comm]
    rw [mat2Mul_eq, h1, Matrix.mul_smul, Matrix.mul_adjugate, ← det2_eq_det,
      identity2_eq_one, smul_smul, one_div, inv_mul_cancel₀ hdet, one_smul]
  · simp [Mat2.Inverse, hm]
  · simp [Mat3.Inverse, hm]
  · have h1 : (Mat3.Inverse m).1 = (1 / Mat3.Determinant m) • m.adjugate := by
      simp only [Mat3.Inverse, if_neg hm]
      rw [Matrix.adjugate_fin_three]
      ext i j
      fin_cases i <;> fin_cases j <;>
        · simp [Matrix.vecHead, Matrix.vecTail]
          ring
    rw [mat3Mul_eq, h1, Matrix.mul_smul, Matrix.mul_adjugate, ← det3_eq_det,
      identity3_eq_one, smul_smul, one_div, inv_mul_cancel₀ hm, one_smul]
  · simp [Mat3.Inverse, hm]
  · simp [Mat4.Inverse, hm]
  · have h1 : (Mat4.Inverse m).1 = (1 / Mat4.Determinant m) • m.adjugate := by
      simp [Mat4.Inverse, hm, adjoint4_eq_adjugate, scalarMul4_eq_smul]
    rw [mat4Mul_eq, h1, Matrix.mul_smul, Matrix.mul_adjugate, ← det4_eq_det,
      identity4_eq_one, smul_smul, one_div, inv_mul_cancel₀ hm, one_smul]
  · simp [Mat4.Inverse, hm]

/-- C1 witness: the amended statement applied to the identity matrices. -/
theorem inverse_correct_amended_witness :
    ((Mat2.Inverse IdentityMat2).2 = true ∧
      Mat2.Mul IdentityMat2 (Mat2.Inverse IdentityMat2).1 = IdentityMat2) ∧
    ((Mat3.Inverse IdentityMat3).2 = true ∧
      Mat3.Mul IdentityMat3 (Mat3.Inverse IdentityMat3).1 = IdentityMat3) ∧
    ((Mat4.Inverse IdentityMat4).2 = true ∧
      Mat4.Mul IdentityMat4 (Mat4.Inverse IdentityMat4).1 = IdentityMat4) :=
  ⟨inverse_correct_amended.1 IdentityMat2
      (by norm_num [goAbs, eps, IdentityMat2, Mat2.Determinant]),
   inverse_correct_amended.2.2.1 IdentityMat3
      (by norm_num [IdentityMat3, Mat3.Determinant]),
   inverse_correct_amended.2.2.2.2.1 IdentityMat4
      (by rw [det4_eq_det, identity4_eq_one, Matrix.det_one]; norm_num)⟩

/-- C9: for each vector size, `Norm` of a vector with magnitude exactly
zero is the zero vector; otherwise `Norm` is the component-wise quotient
by `Mag`; and when the external square-root primitive is exact at the two
points it is consulted at (the squared magnitude, and 1), the normalized
vector has magnitude exactly 1. -/
theorem norm_unit_or_zero (sq : ℚ → ℚ) :
    (∀ v : Vec2 ℚ,
      (Vec2.Mag sq v = 0 → Vec2.Norm sq v = ⟨0, 0⟩) ∧
      (Vec2.Mag sq v ≠ 0 →
        Vec2.Norm sq v = ⟨v.X / Vec2.Mag sq v, v.Y / Vec2.Mag sq v⟩) ∧
      (sq (v.X * v.X + v.Y * v.Y) * sq (v.X * v.X + v.Y * v.Y) =
          v.X * v.X + v.Y * v.Y →
        sq 1 = 1 → Vec2.Mag sq v ≠ 0 → Vec2.Mag sq (Vec2.Norm sq v) = 1)) ∧
    (∀ v : Vec3 ℚ,
      (Vec3.Mag sq v = 0 → Vec3.Norm sq v = ⟨0, 0, 0⟩) ∧
      (Vec3.Mag sq v ≠ 0 →
        Vec3.Norm sq v =
          ⟨v.X / Vec3.Mag sq v, v.Y / Vec3.Mag sq v, v.Z / Vec3.Mag sq v⟩) ∧
      (sq (v.X * v.X + v.Y * v.Y + v.Z * v.Z) *
            sq (v.X * v.X + v.Y * v.Y + v.Z * v.Z) =
          v.X * v.X + v.Y * v.Y + v.Z * v.Z →
        sq 1 = 1 → Vec3.Mag sq v ≠ 0 → Vec3.Mag sq (Vec3.Norm sq v) = 1)) ∧
    (∀ v : Vec4 ℚ,
      (Vec4.Mag sq v = 0 → Vec4.Norm sq v = ⟨0, 0, 0, 0⟩) ∧
      (Vec4.Mag sq v ≠ 0 →
        Vec4.Norm sq v =
          ⟨v.X / Vec4.Mag sq v, v.Y / Vec4.Mag sq v, v.Z / Vec4.Mag sq v,
           v.W / Vec4.Mag sq v⟩) ∧
      (sq (v.X * v.X + v.Y * v.Y + v.Z * v.Z + v.W * v.W) *
            sq (v.X * v.X + v.Y * v.Y + v.Z * v.Z + v.W * v.W) =
          v.X * v.X + v.Y * v.Y + v.Z * v.Z + v.W * v.W →
        sq 1 = 1 → Vec4.Mag sq v ≠ 0 → Vec4.Mag sq (Vec4.Norm sq v) = 1)) := by
  refine ⟨fun v => ⟨fun h => ?_, fun h => ?_, fun hsq h1 h => ?_⟩,
    fun v => ⟨fun h => ?_, fun h => ?_, fun hsq h1 h => ?_⟩,
    fun v => ⟨fun h => ?_, fun h => ?_, fun hsq h1 h => ?_⟩⟩
  · simp [Vec2.Norm, h]
  · simp [Vec2.Norm, h]
  · have hs0 : ¬v.X * v.X + v.Y * v.Y < 0 :=
      not_lt.mpr (add_nonneg (mul_self_nonneg v.X) (mul_self_nonneg v.Y))
    have hmag : Vec2.Mag sq v = sq (v.X * v.X + v.Y * v.Y) := by
      rw [Vec2.Mag, goSqrt, if_neg hs0]
    have hneq : sq (v.X * v.X + v.Y * v.Y) ≠ 0 := hmag ▸ h
    have harg : v.X / sq (v.X * v.X + v.Y * v.Y) * (v.X / sq (v.X * v.X + v.Y * v.Y)) +
        v.Y / sq (v.X * v.X + v.Y * v.Y) * (v.Y / sq (v.X * v.X + v.Y * v.Y)) = 1 := by
      field_simp
      rw [hsq]
    simp only [Vec2.Norm, Vec2.Mag, goSqrt, if_neg hs0, if_neg hneq]
    rw [harg]
    norm_num [h1]
  · simp [Vec3.Norm, h]
  · simp [Vec3.Norm, h]
  · have hs0 : ¬v.X * v.X + v.Y * v.Y + v.Z * v.Z < 0 :=
      not_lt.mpr (add_nonneg (add_nonneg (mul_self_nonneg v.X) (mul_self_nonneg v.Y))
        (mul_self_nonneg v.Z))
    have hmag : Vec3.Mag sq v = sq (v.X * v.X + v.Y * v.Y + v.Z * v.Z) := by
      rw [Vec3.Mag, goSqrt, if_neg hs0]
    have hneq : sq (v.X * v.X + v.Y * v.Y + v.Z * v.Z) ≠ 0 := hmag ▸ h
    have harg : v.X / sq (v.X * v.X + v.Y * v.Y + v.Z * v.Z) *
          (v.X / sq (v.X * v.X + v.Y * v.Y + v.Z * v.Z)) +
        v.Y / sq (v.X * v.X + v.Y * v.Y + v.Z * v.Z) *
          (v.Y / sq (v.X * v.X + v.Y * v.Y + v.Z * v.Z)) +
        v.Z / sq (v.X * v.X + v.Y * v.Y + v.Z * v.Z) *
          (v.Z / sq (v.X * v.X + v.Y * v.Y + v.Z * v.Z)) = 1 := by
      field_simp
      rw [hsq]
    simp only [Vec3.Norm, Vec3.Mag, goSqrt, if_neg hs0, if_neg hneq]
    rw [harg]
    norm_num [h1]
  · simp [Vec4.Norm, h]
  · simp [Vec4.Norm, h]
  · have hs0 : ¬v.X * v.X + v.Y * v.Y + v.Z * v.Z + v.W * v.W < 0 :=
      not_lt.mpr (add_nonneg (add_nonneg (add_nonneg (mul_self_nonneg v.X)
        (mul_self_nonneg v.Y)) (mul_self_nonneg v.Z)) (mul_self_nonneg v.W))
    have hmag : Vec4.Mag sq v = sq (v.X * v.X + v.Y * v.Y + v.Z * v.Z + v.W * v.W) := by
      rw [Vec4.Mag, goSqrt, if_neg hs0]
    have hneq : sq (v.X * v.X + v.Y * v.Y + v.Z * v.Z + v.W * v.W) ≠ 0 := hmag ▸ h
    have harg : v.X / sq (v.X * v.X + v.Y * v.Y + v.Z * v.Z + v.W * v.W) *
          (v.X / sq (v.X * v.X + v.Y * v.Y + v.Z * v.Z + v.W * v.W)) +
        v.Y / sq (v.X * v.X + v.Y * v.Y + v.Z * v.Z + v.W * v.W) *
          (v.Y / sq (v.X * v.X + v.Y * v.Y + v.Z * v.Z + v.W * v.W)) +
        v.Z / sq (v.X * v.X + v.Y * v.Y + v.Z * v.Z + v.W * v.W) *
          (v.Z / sq (v.X * v.X + v.Y * v.Y + v.Z * v.Z + v.W * v.W)) +
        v.W / sq (v.X * v.X + v.Y * v.Y + v.Z * v.Z + v.W * v.W) *
          (v.W / sq (v.X * v.X + v.Y * v.Y + v.Z * v.Z + v.W * v.W)) = 1 := by
      field_simp
      rw [hsq]
    simp only [Vec4.Norm, Vec4.Mag, goSqrt, if_neg hs0, if_neg hneq]
    rw [harg]
    norm_num [h1]

/-- C9 witness: the 3-4-0 vector with an exact square root model. -/
theorem norm_unit_or_zero_witness :
    Vec3.Mag sqW (⟨3, 4, 0⟩ : Vec3 ℚ) ≠ 0 ∧
    Vec3.Mag sqW (Vec3.Norm sqW (⟨3, 4, 0⟩ : Vec3 ℚ)) = 1 :=
  ⟨by norm_num [Vec3.Mag, goSqrt, sqW],
   ((norm_unit_or_zero sqW).2.1 ⟨3, 4, 0⟩).2.2
     (by norm_num [sqW]) (by norm_num [sqW])
     (by norm_num [Vec3.Mag, goSqrt, sqW])⟩

/-- C10: for an integer 2x2 matrix whose determinant has magnitude at
least 2, the epsilon test passes (nonzero determinant) but `1/det`
truncates to zero, so `Inverse` returns the all-zero matrix together with
`success = true`. -/
theorem mat2_int_inverse_false_success (m : Mat2 ℤ) (h : 2 ≤ |Mat2.Determinant m|) :
    Mat2.Determinant m ≠ 0 ∧ Mat2.InverseInt m = (0, true) := by
  have hdet : Mat2.Determinant m ≠ 0 := by
    intro h0
    rw [h0] at h
    norm_num at h
  have habs : 2 ≤ (Mat2.Determinant m).natAbs := by
    rw [Int.abs_eq_natAbs] at h
    exact_mod_cast h
  have htdiv : Int.tdiv 1 (Mat2.Determinant m) = 0 := by
    have : (Int.tdiv 1 (Mat2.Determinant m)).natAbs = 0 := by
      rw [Int.natAbs_tdiv]
      exact Nat.div_eq_of_lt (by omega)
    exact Int.natAbs_eq_zero.mp this
  refine ⟨hdet, ?_⟩
  simp only [Mat2.InverseInt, if_neg hdet, htdiv]
  refine Prod.ext ?_ rfl
  ext i j
  fin_cases i <;> fin_cases j <;> simp [Matrix.vecHead, Matrix.vecTail]

/-- C10 witness: a diagonal integer matrix with determinant 2. -/
theorem mat2_int_inverse_false_success_witness :
    Mat2.Determinant (!![2, 0; 0, 1] : Mat2 ℤ) ≠ 0 ∧
    Mat2.InverseInt (!![2, 0; 0, 1] : Mat2 ℤ) = (0, true) :=
  mat2_int_inverse_false_success !![2, 0; 0, 1] (by norm_num [Mat2.Determinant])

/-- C6 counterexample: component-wise `Div` on an integer 3-vector with a
zero divisor component hits Go's integer division by zero, a run-time
panic (modelled as `none`): the operation does not complete with a value. -/
theorem vec3_int_div_zero_counterexample :
    Vec3.DivInt ⟨1, 1, 1⟩ ⟨0, 1, 1⟩ = none := rfl

/-- C6 (amended): integer component-wise `Div` panics exactly when some
divisor component is zero and completes otherwise; over an exact field
(the floating-point reading) `Div` is total. -/
theorem div_totality_amended :
    (∀ v w : Vec2 ℤ, Vec2.DivInt v w = none ↔ w.X = 0 ∨ w.Y = 0) ∧
    (∀ v w : Vec3 ℤ, Vec3.DivInt v w = none ↔ w.X = 0 ∨ w.Y = 0 ∨ w.Z = 0) ∧
    (∀ v w : Vec4 ℤ,
      Vec4.DivInt v w = none ↔ w.X = 0 ∨ w.Y = 0 ∨ w.Z = 0 ∨ w.W = 0) ∧
    (∀ m n : Mat2 ℤ,
      Mat2.DivInt m n = none ↔
        n 0 0 = 0 ∨ n 0 1 = 0 ∨ n 1 0 = 0 ∨ n 1 1 = 0) ∧
    (∀ v w : Vec3 ℚ, Vec3.Div v w = ⟨v.X / w.X, v.Y / w.Y, v.Z / w.Z⟩) ∧
    (∀ v w : Vec4 ℚ,
      Vec4.Div v w = ⟨v.X / w.X, v.Y / w.Y, v.Z / w.Z, v.W / w.W⟩) ∧
    (∀ m n : Mat2 ℚ,
      Mat2.Div m n =
        !![m 0 0 / n 0 0, m 0 1 / n 0 1; m 1 0 / n 1 0, m 1 1 / n 1 1]) := by
  refine ⟨fun v w => ?_, fun v w => ?_, fun v w => ?_, fun m n => ?_,
    fun v w => rfl, fun v w => rfl, fun m n => rfl⟩
  · by_cases hx : w.X = 0 <;> by_cases hy : w.Y = 0 <;>
      simp [Vec2.DivInt, goIntDiv, hx, hy]
  · by_cases hx : w.X = 0 <;> by_cases hy : w.Y = 0 <;> by_cases hz : w.Z = 0 <;>
      simp [Vec3.DivInt, goIntDiv, hx, hy, hz]
  · by_cases hx : w.X = 0 <;> by_cases hy : w.Y = 0 <;> by_cases hz : w.Z = 0 <;>
      by_cases hw : w.W = 0 <;> simp [Vec4.DivInt, goIntDiv, hx, hy, hz, hw]
  · by_cases h00 : n 0 0 = 0 <;> by_cases h01 : n 0 1 = 0 <;>
      by_cases h10 : n 1 0 = 0 <;> by_cases h11 : n 1 1 = 0 <;>
      simp [Mat2.DivInt, goIntDiv, h00, h01, h10, h11]

/-- The loop of `CubicSpline` stops at the least interval index whose
right endpoint is at least `xVal`; every knot passed on the way is
strictly below `xVal`. -/
lemma splineSearch_spec (x : List ℚ) (v : ℚ) :
    2 ≤ x.length → v ≤ x.getD (x.length - 1) 0 →
    splineSearch x v + 1 < x.length ∧
    v ≤ x.getD (splineSearch x v + 1) 0 ∧
    ∀ j, j < splineSearch x v → x.getD (j + 1) 0 < v := by
  induction x with
  | nil => intro h2 _; simp at h2
  | cons x0 tail ih =>
    intro h2 hlast
    cases tail with
    | nil => simp at h2
    | cons x1 rest =>
      by_cases hx : x1 < v
      · cases rest with
        | nil =>
          exfalso
          have hv : v ≤ x1 := by simpa using hlast
          linarith
        | cons x2 rest2 =>
          have hlen : 2 ≤ (x1 :: x2 :: rest2).length := by simp
          have hidx : (x0 :: x1 :: x2 :: rest2).length - 1 =
              ((x1 :: x2 :: rest2).length - 1) + 1 := by
            simp
          rw [hidx, List.getD_cons_succ] at hlast
          obtain ⟨hlt, hle, hall⟩ := ih hlen hlast
          have hS : splineSearch (x0 :: x1 :: x2 :: rest2) v =
              1 + splineSearch (x1 :: x2 :: rest2) v := by
            rw [splineSearch, if_pos hx]
          refine ⟨?_, ?_, ?_⟩
          · rw [hS]
            simp only [List.length_cons] at hlt ⊢
            omega
          · rw [hS]
            have harith : 1 + splineSearch (x1 :: x2 :: rest2) v + 1 =
                (splineSearch (x1 :: x2 :: rest2) v + 1) + 1 := by omega
            rw [harith, List.getD_cons_succ]
            exact hle
          · intro j hj
            rw [hS] at hj
            cases j with
            | zero => simpa using hx
            | succ k =>
              rw [List.getD_cons_succ]
              exact hall k (by omega)
      · have hS : splineSearch (x0 :: x1 :: rest) v = 0 := by
          rw [splineSearch, if_neg hx]
        rw [hS]
        refine ⟨by simp, by simpa using not_lt.mp hx, fun j hj => by omega⟩

/-- C5 counterexample: with knots `[0, 1, 2]` and query `xVal = 1` (an
interior knot), the code selects the interval left of the knot (`i = 0`,
`h = 1`) and returns 0, while the claim's rightmost index with
`xs[i] ≤ xVal` is `i = 1` (`h = 0`), which yields `a[1] = 100`. -/
theorem cubicSpline_knot_counterexample :
    CubicSpline [0, 1, 2] [0, 100, 0] [0, 0, 0] [0, 0, 0] [0, 0, 0] 1 = 0 ∧
    specCubicSpline [0, 1, 2] [0, 100, 0] [0, 0, 0] [0, 0, 0] [0, 0, 0] 1 = 100 := by
  constructor
  · norm_num [CubicSpline, splineSearch, List.getD]
  · norm_num [specCubicSpline, specRightmostIdx, List.range_succ, List.getD]

/-- C5 (amended): on valid input (equal lengths, at least two knots,
`xVal` within range) `CubicSpline` selects the LEFTMOST interval index
`i` with `xVal ≤ xs[i+1]` — equivalently the rightmost interval whose
left endpoint is strictly below `xVal`, with `i = 0` when there is none;
when `xVal` equals a knot this is the interval to the knot's left, not
the claim's rightmost index with `xs[i] ≤ xVal` — this index satisfies
`xs[i] ≤ xVal`, and the function returns
`a[i] + b[i]*h + c[i]*h² + d[i]*h³` with `h = xVal - xs[i]`. -/
theorem cubicSpline_amended (x a b c d : List ℚ) (v : ℚ)
    (ha : x.length = a.length) (hb : x.length = b.length)
    (hc : x.length = c.length) (hd : x.length = d.length)
    (h2 : 2 ≤ x.length)
    (h0 : x.getD 0 0 ≤ v) (hlast : v ≤ x.getD (x.length - 1) 0) :
    ∃ i, i + 1 < x.length ∧
      x.getD i 0 ≤ v ∧ v ≤ x.getD (i + 1) 0 ∧
      (∀ j, j < i → x.getD (j + 1) 0 < v) ∧
      CubicSpline x a b c d v =
        a.getD i 0 + b.getD i 0 * (v - x.getD i 0) +
          c.getD i 0 * ((v - x.getD i 0) * (v - x.getD i 0)) +
          d.getD i 0 * ((v - x.getD i 0) * (v - x.getD i 0) * (v - x.getD i 0)) := by
  obtain ⟨hlt, hle, hall⟩ := splineSearch_spec x v h2 hlast
  refine ⟨splineSearch x v, hlt, ?_, hle, hall, ?_⟩
  · rcases Nat.eq_zero_or_pos (splineSearch x v) with h | h
    · rw [h]
      exact h0
    · have hstep := hall (splineSearch x v - 1) (by omega)
      have heq : splineSearch x v - 1 + 1 = splineSearch x v := by omega
      rw [heq] at hstep
      exact le_of_lt hstep
  · have hg1 : ¬(x.length ≠ a.length ∨ x.length ≠ b.length ∨ x.length ≠ c.length ∨
        x.length ≠ d.length ∨ x.length < 2) := by
      push_neg
      exact ⟨ha, hb, hc, hd, by omega⟩
    have hg2 : ¬(v < x.getD 0 0 ∨ v > x.getD (x.length - 1) 0) := by
      push_neg
      exact ⟨h0, hlast⟩
    simp only [CubicSpline, if_neg hg1, if_neg hg2]

/-- C5 witness: the amended statement at knots `[0, 1]` and query `1/2`. -/
theorem cubicSpline_amended_witness :
    ∃ i, i + 1 < ([0, 1] : List ℚ).length ∧
      ([0, 1] : List ℚ).getD i 0 ≤ 1 / 2 ∧
      (1 / 2 : ℚ) ≤ ([0, 1] : List ℚ).getD (i + 1) 0 ∧
      (∀ j, j < i → ([0, 1] : List ℚ).getD (j + 1) 0 < 1 / 2) ∧
      CubicSpline [0, 1] [5, 0] [1, 0] [0, 0] [0, 0] (1 / 2) =
        ([5, 0] : List ℚ).getD i 0 +
          ([1, 0] : List ℚ).getD i 0 * (1 / 2 - ([0, 1] : List ℚ).getD i 0) +
          ([0, 0] : List ℚ).getD i 0 *
            ((1 / 2 - ([0, 1] : List ℚ).getD i 0) * (1 / 2 - ([0, 1] : List ℚ).getD i 0)) +
          ([0, 0] : List ℚ).getD i 0 *
            ((1 / 2 - ([0, 1] : List ℚ).getD i 0) * (1 / 2 - ([0, 1] : List ℚ).getD i 0) *
              (1 / 2 - ([0, 1] : List ℚ).getD i 0)) :=
  cubicSpline_amended [0, 1] [5, 0] [1, 0] [0, 0] [0, 0] (1 / 2)
    rfl rfl rfl rfl (by norm_num) (by norm_num [List.getD]) (by norm_num [List.getD])
